import Mathlib

/-!
smartnode: deposit reservation, node deposit and queue status.

A shallow embedding of three functions of the repository

* `reserveDeposit` (rocketpool/api/deposits/reservations.go),
* `nodeDeposit`    (rocketpool-cli/node/deposit.go),
* `getStatus`      (rocketpool/api/queue/status.go),

together with theorems about the byte layout of the deposit input, the order
of the precondition checks, the suggested node fee, the offered deposit
amounts and the all-or-nothing queue status.

Conventions.  A Go byte is a natural number, and the conversion `byte(n)` of an
`int` is `n % 256`.  The node fees are Go `float64` values, with addition
rounded to the nearest value.  A Go function returning `(T, error)` is a value of
`Except String T`; a Go function returning only `error` gives `Option String`
(`none` is the nil error).  Everything a function does to the outside world
(lines printed, contract calls, transactions) is recorded, in order, in a list
of events.
-/

namespace deposits

/-! ## encoding/hex and bytes, as far as `reserveDeposit` uses them -/

/-- Value of one hexadecimal digit, `none` for any other character. -/
def fromHexChar (c : Char) : Option Nat :=
  if 48 ≤ c.toNat ∧ c.toNat ≤ 57 then some (c.toNat - 48)
  else if 97 ≤ c.toNat ∧ c.toNat ≤ 102 then some (c.toNat - 97 + 10)
  else if 65 ≤ c.toNat ∧ c.toNat ≤ 70 then some (c.toNat - 65 + 10)
  else none

/-- Number of bytes that `n` hexadecimal characters decode to: `hex.DecodedLen`. -/
def DecodedLen (n : Nat) : Nat := n / 2

/-- Bytes that `hex.Decode` writes, pair by pair, until the source ends or a
character is not a hexadecimal digit. -/
def decodePairs : List Char → List Nat
  | p :: q :: rest =>
    match fromHexChar p, fromHexChar q with
    | some a, some b => (a * 16 + b) :: decodePairs rest
    | _, _ => []
  | _ => []

/-- Contents of `dst` after `hex.Decode(dst, src)`: the decoded bytes overwrite
the front of `dst`, the rest of `dst` is left as it was.  The count and the
error that `hex.Decode` returns are discarded by `reserveDeposit`. -/
def hexDecode (dst : List Nat) (src : List Char) : List Nat :=
  let written := (decodePairs src).take dst.length
  written ++ dst.drop written.length

/-- Go `make([]byte, n)`: `n` zero bytes. -/
def makeBytes (n : Nat) : List Nat := List.replicate n 0

/-- The three statements `h := []byte(s); b := make([]byte, hex.DecodedLen(len(h)));
_,_ = hex.Decode(b, h)` of `reserveDeposit`, for an ASCII literal `s`. -/
def decodeHexLiteral (s : String) : List Nat :=
  hexDecode (makeBytes (DecodedLen s.data.length)) s.data

/-- Go `bytes.Join(s, sep)`: the slices of `s` with `sep` between them. -/
def bytesJoin (s : List (List Nat)) (sep : List Nat) : List Nat :=
  sep.intercalate s

/-- A Go `[32]byte`. -/
abbrev Bytes32 : Type := { l : List Nat // l.length = 32 }

/-- Length of an address in bytes: `common.AddressLength`. -/
def AddressLength : Nat := 20

/-! ## The constants of `reserveDeposit` (reservations.go, lines 104-125) -/

/-- Hexadecimal text of the validator pubkey (line 104). -/
def pubkeyHex : String :=
  "0123456789abcdef0123456789abcdef0123456789abcdef0123456789abcdef0123456789abcdef0123456789abcd01"

/-- Hexadecimal text of the withdrawal pubkey (line 110). -/
def withdrawalPubkeyHex : String :=
  "0123456789abcdef0123456789abcdef0123456789abcdef0123456789abcdef0123456789abcdef0123456789abcdef"

/-- Hexadecimal text of the proof of possession (lines 120-123). -/
def proofOfPossessionHex : String :=
  "0123456789abcdef0123456789abcdef0123456789abcdef0123456789abcdef" ++
  "0123456789abcdef0123456789abcdef0123456789abcdef0123456789abcdef" ++
  "0123456789abcdef0123456789abcdef0123456789abcdef0123456789abcdef"

/-- Validator pubkey of lines 104-106. -/
def pubkey : List Nat := decodeHexLiteral pubkeyHex

/-- Withdrawal pubkey of lines 110-112. -/
def withdrawalPubkey : List Nat := decodeHexLiteral withdrawalPubkeyHex

/-- Proof of possession of lines 120-125. -/
def proofOfPossession : List Nat := decodeHexLiteral proofOfPossessionHex

/-! ## Building the deposit input (lines 114-131) -/

/-- Lines 115-116: the hash of the withdrawal pubkey with its first byte
replaced by 0.  `KeccakBytes` belongs to the package `utils/eth`, whose source
is not part of the files at hand; it is a parameter returning a `[32]byte`. -/
def buildWithdrawalCredentials (KeccakBytes : List Nat → Bytes32)
    (withdrawalPubkey : List Nat) : List Nat :=
  (KeccakBytes withdrawalPubkey).val.set 0 0

/-- Lines 129-130: `var depositInputLength [4]byte` with element 0 set to the
byte conversion of the sum of the three lengths. -/
def depositInputLength (pubkey withdrawalCredentials proofOfPossession : List Nat) :
    List Nat :=
  (List.replicate 4 0).set 0
    ((pubkey.length + withdrawalCredentials.length + proofOfPossession.length) % 256)

/-- Lines 114-131: the deposit input built from a validator pubkey, a
withdrawal pubkey and a proof of possession. -/
def buildDepositInput (KeccakBytes : List Nat → Bytes32)
    (pubkey withdrawalPubkey proofOfPossession : List Nat) : List Nat :=
  let withdrawalCredentials := buildWithdrawalCredentials KeccakBytes withdrawalPubkey
  bytesJoin
    [depositInputLength pubkey withdrawalCredentials proofOfPossession,
     pubkey, withdrawalCredentials, proofOfPossession] []

/-! ## `reserveDeposit` (lines 29-161) -/

/-- What `reserveDeposit` does to the outside world, in program order. -/
inductive Event where
  /-- Line written by `fmt.Println`. -/
  | print (line : String)
  /-- Call of `ethclient.Dial`. -/
  | dial
  /-- Call of `rocketpool.NewContractManager`. -/
  | newContractManager
  /-- Call of `rp.LoadContracts`. -/
  | loadContracts (names : List String)
  /-- Call of `rp.LoadABIs`. -/
  | loadABIs (names : List String)
  /-- Read-only contract call `Call(nil, result, method, args...)`. -/
  | call (contract method : String)
  /-- Call of `rp.NewContract(address, name)`. -/
  | newContract (address : List Nat) (name : String)
  /-- Call of `am.GetNodeAccountTransactor`. -/
  | getNodeAccountTransactor
  /-- Signed transaction `nodeContract.Transact(transactor, method, durationId, depositInput)`. -/
  | transact (method durationId : String) (depositInput : List Nat)
  deriving DecidableEq, Repr

/-- The collaborators of `reserveDeposit`: account manager, ethereum client and
contracts.  `S` is the state of the chain; reads are functions of it and the
transaction maps it to a new state or fails. -/
structure Env (S : Type) where
  /-- Result of `am.NodeAccountExists()`. -/
  NodeAccountExists : Bool
  /-- Address of `am.GetNodeAccount()`. -/
  nodeAccountAddress : List Nat
  /-- Error of `ethclient.Dial`, if any. -/
  Dial : Option String
  /-- Error of `rocketpool.NewContractManager`, if any. -/
  NewContractManager : Option String
  /-- Error of `rp.LoadContracts`, if any. -/
  LoadContracts : Option String
  /-- Error of `rp.LoadABIs`, if any. -/
  LoadABIs : Option String
  /-- Result of `rocketNodeAPI.getContract(nodeAccount.Address)`. -/
  getContract : S → List Nat → Except String (List Nat)
  /-- Result of `rocketNodeSettings.getDepositAllowed()`. -/
  getDepositAllowed : S → Except String Bool
  /-- Error of `rp.NewContract(nodeContractAddress, "rocketNodeContract")`, if any. -/
  NewContract : List Nat → Option String
  /-- Result of `getHasDepositReservation()` on the node contract at an address. -/
  getHasDepositReservation : S → List Nat → Except String Bool
  /-- Error of `am.GetNodeAccountTransactor()`, if any. -/
  GetNodeAccountTransactor : Option String
  /-- Result of the transaction `depositReserve(durationId, depositInput)` on the
  node contract at an address: the next chain state, or an error. -/
  depositReserve : S → List Nat → String → List Nat → Except String S
  /-- The hash `eth.KeccakBytes`. -/
  KeccakBytes : List Nat → Bytes32

/-- What a run of `reserveDeposit` leaves behind: the events in program order,
the returned error (`none` for `nil`) and the chain state afterwards. -/
structure Outcome (S : Type) where
  /-- Events, first to last. -/
  trace : List Event
  /-- Returned error. -/
  err : Option String
  /-- Chain state after the run. -/
  chain : S

/-- Lines 29-161, with the three byte strings of lines 104-125 as arguments
(`reserveDeposit` below passes the constants of the source). -/
def reserveDepositWith {S : Type} (env : Env S)
    (pubkey withdrawalPubkey proofOfPossession : List Nat)
    (chain : S) (durationId : String) : Outcome S :=
  -- Get node account
  if !env.NodeAccountExists then
    ⟨[.print "Node account does not exist, please initialize with `rocketpool node init`"],
      none, chain⟩
  else
  -- Connect to ethereum node
  let t1 : List Event := [.dial]
  match env.Dial with
  | some e => ⟨t1, some ("Error connecting to ethereum node: " ++ e), chain⟩
  | none =>
  -- Initialise Rocket Pool contract manager
  let t2 := t1 ++ [.newContractManager]
  match env.NewContractManager with
  | some e => ⟨t2, some e, chain⟩
  | none =>
  -- Load Rocket Pool node contracts
  let t3 := t2 ++ [.loadContracts ["rocketNodeAPI", "rocketNodeSettings"]]
  match env.LoadContracts with
  | some e => ⟨t3, some e, chain⟩
  | none =>
  let t4 := t3 ++ [.loadABIs ["rocketNodeContract"]]
  match env.LoadABIs with
  | some e => ⟨t4, some e, chain⟩
  | none =>
  -- Check node is registered (contract exists)
  let t5 := t4 ++ [.call "rocketNodeAPI" "getContract"]
  match env.getContract chain env.nodeAccountAddress with
  | .error e => ⟨t5, some ("Error checking node registration: " ++ e), chain⟩
  | .ok nodeContractAddress =>
  if nodeContractAddress = makeBytes AddressLength then
    ⟨t5 ++ [.print "Node is not registered with Rocket Pool, please register with `rocketpool node register`"],
      none, chain⟩
  else
  -- Check node deposits are enabled
  let t6 := t5 ++ [.call "rocketNodeSettings" "getDepositAllowed"]
  match env.getDepositAllowed chain with
  | .error e => ⟨t6, some ("Error checking node deposits enabled status: " ++ e), chain⟩
  | .ok depositsAllowed =>
  if !depositsAllowed then
    ⟨t6 ++ [.print "Node deposits are currently disabled in Rocket Pool"], none, chain⟩
  else
  -- Initialise node contract
  let t7 := t6 ++ [.newContract nodeContractAddress "rocketNodeContract"]
  match env.NewContract nodeContractAddress with
  | some e => ⟨t7, some ("Error initialising node contract: " ++ e), chain⟩
  | none =>
  -- Check node does not have current deposit reservation
  let t8 := t7 ++ [.call "rocketNodeContract" "getHasDepositReservation"]
  match env.getHasDepositReservation chain nodeContractAddress with
  | .error e => ⟨t8, some ("Error retrieving deposit reservation status: " ++ e), chain⟩
  | .ok hasReservation =>
  if hasReservation then
    ⟨t8 ++ [.print "Node has an existing deposit reservation, please cancel or finalize it"],
      none, chain⟩
  else
  -- Build DepositInput
  let depositInput := buildDepositInput env.KeccakBytes pubkey withdrawalPubkey proofOfPossession
  -- Get node account transactor
  let t9 := t8 ++ [.getNodeAccountTransactor]
  match env.GetNodeAccountTransactor with
  | some e => ⟨t9, some e, chain⟩
  | none =>
  -- Create deposit reservation
  let t10 := t9 ++ [.transact "depositReserve" durationId depositInput]
  match env.depositReserve chain nodeContractAddress durationId depositInput with
  | .error e => ⟨t10, some ("Error making deposit reservation: " ++ e), chain⟩
  | .ok chain1 =>
  -- Log & return
  ⟨t10 ++ [.print "Deposit reservation made successfully"], none, chain1⟩

/-- The function `reserveDeposit` of reservations.go: the three byte strings
are the decoded constants of lines 104-125. -/
def reserveDeposit {S : Type} (env : Env S) (chain : S) (durationId : String) : Outcome S :=
  reserveDepositWith env pubkey withdrawalPubkey proofOfPossession chain durationId

/-- Whether an event is a transaction. -/
def Event.isTransact : Event → Bool
  | .transact _ _ _ => true
  | _ => false

/-- The lines printed during a run. -/
def printed : List Event → List String
  | [] => []
  | .print l :: rest => l :: printed rest
  | _ :: rest => printed rest

/-- The hash used in the examples: every digest is 32 bytes `0xAA`. -/
def hashAA : List Nat → Bytes32 := fun _ => ⟨List.replicate 32 170, by simp⟩

/-- An environment for the examples.  The chain state is one boolean, whether
the node has a deposit reservation; the node is registered at the address
`02 02 ... 02`, deposits are allowed, no collaborator fails, and the
transaction `depositReserve` creates the reservation. -/
def exampleEnv : Env Bool where
  NodeAccountExists := true
  nodeAccountAddress := List.replicate 20 1
  Dial := none
  NewContractManager := none
  LoadContracts := none
  LoadABIs := none
  getContract := fun _ _ => .ok (List.replicate 20 2)
  getDepositAllowed := fun _ => .ok true
  NewContract := fun _ => none
  getHasDepositReservation := fun hasReservation _ => .ok hasReservation
  GetNodeAccountTransactor := none
  depositReserve := fun _ _ _ _ => .ok true
  KeccakBytes := hashAA

end deposits


/-! ## Go `float64`

The fees of `nodeDeposit` are `float64` values, and the source adds the
constant `-0.01` to one of them and compares the sum with another.  A finite
`float64` is a whole multiple of `2 ^ (-1074)`, so it is kept as a sign and a
magnitude counted in that unit; every finite magnitude is below `2 ^ 2098`
(the value `2 ^ 1024`).  Addition is the exact sum rounded to the nearest
representable value, ties to the even mantissa, as IEEE 754 and the Go
specification prescribe. -/

/-- A Go `float64`: a finite value `(-1) ^ neg * mag * 2 ^ (-1074)` (so both
zeros are there), an infinity, or not-a-number. -/
inductive float64 where
  /-- Finite value of the given sign and magnitude. -/
  | finite (neg : Bool) (mag : Nat)
  /-- Infinity of the given sign. -/
  | inf (neg : Bool)
  /-- Not a number. -/
  | nan
  deriving DecidableEq, Repr

namespace float64

/-- The quotient `num / den`, counted in units of `2 ^ (-1074)`, rounded to the
nearest multiple of `2 ^ shift`, a tie going to the even multiple. -/
def roundAt (shift num den : Nat) : Nat :=
  let d := den * 2 ^ shift
  let m := num / d
  let r := num % d
  let m1 := if d < 2 * r ∨ (2 * r = d ∧ m % 2 = 1) then m + 1 else m
  m1 * 2 ^ shift

/-- The quotient `num / den`, counted in units of `2 ^ (-1074)`, rounded to 53
significant bits: below `2 ^ 53` units the spacing of the representable values
is one unit, and from `2 ^ k` to `2 ^ (k + 1)` it is `2 ^ (k - 52)` units. -/
def roundUnits (num den : Nat) : Nat :=
  roundAt (Nat.log2 (num / den) - 52) num den

/-- The `float64` nearest to `(-1) ^ neg * (num / den)` units; a rounded
magnitude of `2 ^ 2098` units or more overflows to infinity. -/
@[irreducible]
def ofUnits (neg : Bool) (num den : Nat) : float64 :=
  let mag := roundUnits num den
  if 2 ^ 2098 ≤ mag then inf neg else finite neg mag

/-- The `float64` nearest to the fraction `(-1) ^ neg * (num / den)`: the
conversion of an exact constant such as `-0.01`, which is `-(1 / 100)`. -/
def ofDecimal (neg : Bool) (num den : Nat) : float64 :=
  ofUnits neg (num * 2 ^ 1074) den

/-- A finite value as a signed number of units. -/
def units (neg : Bool) (mag : Nat) : Int := if neg then -(mag : Int) else mag

/-- Go `x + y` on `float64`. -/
def add : float64 → float64 → float64
  | nan, _ => nan
  | _, nan => nan
  | inf a, inf b => if a = b then inf a else nan
  | inf a, finite _ _ => inf a
  | finite _ _, inf b => inf b
  | finite a x, finite b y =>
    let s := units a x + units b y
    if s = 0 then finite (a && b) 0 else ofUnits (decide (s < 0)) s.natAbs 1

/-- Go `x < y` on `float64`: false whenever an operand is not a number, and
the two zeros are equal. -/
def lt : float64 → float64 → Bool
  | nan, _ => false
  | _, nan => false
  | inf a, inf b => a && !b
  | inf a, finite _ _ => a
  | finite _ _, inf b => !b
  | finite a x, finite b y => decide (units a x < units b y)

/-- The exact rational value of a finite `float64`. -/
def toRat : float64 → Option ℚ
  | finite neg mag => some (units neg mag / 2 ^ 1074)
  | _ => none

end float64

namespace node

/-! ## `nodeDeposit` (rocketpool-cli/node/deposit.go) -/

/-- Line 15: `const SuggestedNodeFeeDelta = -0.01`, one per cent below current.
The constant is used once, as an operand of a `float64` addition, where Go
converts it to the nearest `float64`. -/
def SuggestedNodeFeeDelta : float64 := float64.ofDecimal true 1 100

/-- The fields of the response of `rp.CanNodeDeposit` that `nodeDeposit` reads. -/
structure CanNodeDepositResponse where
  /-- Whether the deposit can be made. -/
  CanDeposit : Bool
  /-- The node balance is too low. -/
  InsufficientBalance : Bool
  /-- The amount is not a valid deposit amount. -/
  InvalidAmount : Bool
  /-- Node deposits are disabled. -/
  DepositDisabled : Bool
  deriving DecidableEq, Repr

/-- The fields of the response of `rp.NodeFee` that `nodeDeposit` reads.  The
declaration of the response type is in `shared/types/api`; the source adds the
untyped constant `-0.01` to `NodeFee` and compares the sum with `MinNodeFee`,
which Go allows for floating-point fields only, and they are `float64`. -/
structure NodeFeeResponse where
  /-- Current network node fee. -/
  NodeFee : float64
  /-- Network minimum node fee. -/
  MinNodeFee : float64
  deriving DecidableEq, Repr

/-- What `nodeDeposit` does to the outside world, in program order. -/
inductive Event where
  /-- Call of `rocketpool.NewClientFromCtx`. -/
  | newClient
  /-- The deferred `rp.Close()`. -/
  | close
  /-- Call of `rp.NodeStatus`. -/
  | nodeStatus
  /-- Call of `cliutils.Select(question, options)`. -/
  | select (question : String) (options : List String)
  /-- Call of `rp.CanNodeDeposit(amountWei)`. -/
  | canNodeDeposit (amountWei : Int)
  /-- Call of `rp.NodeFee`. -/
  | nodeFee
  /-- Call of `promptMinNodeFee(currentNodeFee, suggestedMinNodeFee)`. -/
  | promptMinNodeFee (currentNodeFee suggestedMinNodeFee : float64)
  /-- Call of `rp.NodeDeposit(amountWei, minNodeFee)`. -/
  | nodeDeposit (amountWei : Int) (minNodeFee : float64)
  /-- Line written by `fmt.Println` or `fmt.Printf`. -/
  | print (line : String)
  deriving DecidableEq, Repr

/-- The collaborators of `nodeDeposit`. -/
structure Env where
  /-- Error of `rocketpool.NewClientFromCtx`, if any. -/
  NewClientFromCtx : Option String
  /-- Result of `rp.NodeStatus()`: the field `Trusted` of the status, or an error. -/
  NodeStatus : Except String Bool
  /-- First result of `cliutils.Select(question, options)`, the selected index.
  Its second result is discarded by `nodeDeposit`. -/
  Select : String → List String → Int
  /-- Conversion `eth.EthToWei` of the library rocketpool-go. -/
  EthToWei : ℚ → Int
  /-- Result of `rp.CanNodeDeposit(amountWei)`. -/
  CanNodeDeposit : Int → Except String CanNodeDepositResponse
  /-- Result of `rp.NodeFee()`. -/
  NodeFee : Except String NodeFeeResponse
  /-- Result of `promptMinNodeFee(currentNodeFee, suggestedMinNodeFee)`. -/
  promptMinNodeFee : float64 → float64 → float64
  /-- Result of `rp.NodeDeposit(amountWei, minNodeFee)`: the field
  `MinipoolAddress` of the response, or an error. -/
  NodeDeposit : Int → float64 → Except String (List Nat)
  /-- The text `%.2f` gives for `eth.WeiToEth(amountWei)`. -/
  formatEth : Int → String
  /-- The text of `Address.Hex()`. -/
  addressHex : List Nat → String

/-- Result of a run of `nodeDeposit`: the events in program order and the
returned error (`none` for `nil`). -/
structure Outcome where
  /-- Events, first to last. -/
  trace : List Event
  /-- Returned error. -/
  err : Option String
  deriving DecidableEq, Repr

/-- Lines 31-38: the deposit amount options offered for a node status. -/
def amountOptions (trusted : Bool) : List String :=
  let amountOptions := [
    "32 ETH (minipool begins staking immediately)",
    "16 ETH (minipool begins staking after ETH is assigned)"]
  if trusted then
    amountOptions ++ ["0 ETH  (minipool begins staking after ETH is assigned)"]
  else amountOptions

/-- Lines 41-47: `var amount float64` and the switch on the selected index,
which has no default case. -/
def amount (selected : Int) : ℚ :=
  if selected = 0 then 32
  else if selected = 1 then 16
  else if selected = 2 then 0
  else 0

/-- Lines 56-64: the lines printed for a response that does not allow the deposit. -/
def cannotDepositLines (canDeposit : CanNodeDepositResponse) : List String :=
  ["Cannot make node deposit:"] ++
  (if canDeposit.InsufficientBalance then ["The node's ETH balance is insufficient."] else []) ++
  (if canDeposit.InvalidAmount then ["The deposit amount is invalid."] else []) ++
  (if canDeposit.DepositDisabled then ["Node deposits are currently disabled."] else [])

/-- Lines 75-79: the suggested minimum node fee, in `float64` arithmetic. -/
def suggestedMinNodeFee (nodeFees : NodeFeeResponse) : float64 :=
  let suggestedMinNodeFee := float64.add nodeFees.NodeFee SuggestedNodeFeeDelta
  if float64.lt suggestedMinNodeFee nodeFees.MinNodeFee then nodeFees.MinNodeFee
  else suggestedMinNodeFee

/-- Lines 24-94, after the client was obtained: everything up to the return,
the deferred `rp.Close()` excepted. -/
def nodeDepositBody (env : Env) : Outcome :=
  -- Get node status
  let t1 : List Event := [.nodeStatus]
  match env.NodeStatus with
  | .error e => ⟨t1, some e⟩
  | .ok trusted =>
  -- Get deposit amount options, prompt for eth amount
  let options := amountOptions trusted
  let t2 := t1 ++ [.select "Please choose an amount of ETH to deposit:" options]
  let selected := env.Select "Please choose an amount of ETH to deposit:" options
  let amountWei := env.EthToWei (amount selected)
  -- Check deposit can be made
  let t3 := t2 ++ [.canNodeDeposit amountWei]
  match env.CanNodeDeposit amountWei with
  | .error e => ⟨t3, some e⟩
  | .ok canDeposit =>
  if !canDeposit.CanDeposit then
    ⟨t3 ++ (cannotDepositLines canDeposit).map .print, none⟩
  else
  -- Get network node fees
  let t4 := t3 ++ [.nodeFee]
  match env.NodeFee with
  | .error e => ⟨t4, some e⟩
  | .ok nodeFees =>
  -- Get suggested minimum node fee, prompt for minimum node fee
  let suggested := suggestedMinNodeFee nodeFees
  let t5 := t4 ++ [.promptMinNodeFee nodeFees.NodeFee suggested]
  let minNodeFee := env.promptMinNodeFee nodeFees.NodeFee suggested
  -- Make deposit
  let t6 := t5 ++ [.nodeDeposit amountWei minNodeFee]
  match env.NodeDeposit amountWei minNodeFee with
  | .error e => ⟨t6, some e⟩
  | .ok minipoolAddress =>
  -- Log & return
  ⟨t6 ++ [.print ("The node deposit of " ++ env.formatEth amountWei ++ " ETH was made successfully."),
          .print ("A new minipool was created at " ++ env.addressHex minipoolAddress ++ ".")],
    none⟩

/-- The function `nodeDeposit` of deposit.go (lines 18-94). -/
def nodeDeposit (env : Env) : Outcome :=
  -- Get RP client
  match env.NewClientFromCtx with
  | some e => ⟨[.newClient], some e⟩
  | none =>
  let body := nodeDepositBody env
  ⟨[.newClient] ++ body.trace ++ [.close], body.err⟩

/-- The amounts on offer for a node status: the amount the switch of lines
42-46 gives for each index of the option list. -/
def offeredAmounts (trusted : Bool) : List ℚ :=
  (List.range (amountOptions trusted).length).map fun i => amount i

/-- The number an option label starts with. -/
def labelAmount (label : String) : ℚ :=
  ((label.data.takeWhile Char.isDigit).foldl (fun n c => 10 * n + (c.toNat - 48)) 0 : Nat)

/-- An environment for the examples: the node is not trusted, the prompt yields
a given index, `CanNodeDeposit` gives a given response, and the network fees
are the `float64` values of 0.05 and 0.03. -/
def exampleEnv (selected : Int) (canDeposit : CanNodeDepositResponse) : Env where
  NewClientFromCtx := none
  NodeStatus := .ok false
  Select := fun _ _ => selected
  EthToWei := fun eth => (eth * 1000000000000000000).floor
  CanNodeDeposit := fun _ => .ok canDeposit
  NodeFee := .ok ⟨float64.ofDecimal false 5 100, float64.ofDecimal false 3 100⟩
  promptMinNodeFee := fun _ suggested => suggested
  NodeDeposit := fun _ _ => .ok (List.replicate 20 3)
  formatEth := fun _ => "0.00"
  addressHex := fun _ => "0x0303030303030303030303030303030303030303"

end node

namespace queue

/-! ## `getStatus` (rocketpool/api/queue/status.go) -/

/-- The response `api.QueueStatusResponse`, with the three fields that
`getStatus` assigns. -/
structure QueueStatusResponse where
  /-- Balance of the deposit pool, as decimal text. -/
  DepositPoolBalance : String
  /-- Length of the minipool queue. -/
  MinipoolQueueLength : Int
  /-- Capacity of the minipool queue, as decimal text. -/
  MinipoolQueueCapacity : String
  deriving DecidableEq, Repr

/-- The collaborators of `getStatus`.  `RP` is the type of the Rocket Pool
handle; `B`, `L` and `C` are the types of the values the three reads return. -/
structure Env (RP B L C : Type) where
  /-- Error of `services.RequireRocketStorage`, if any. -/
  RequireRocketStorage : Option String
  /-- Result of `services.GetRocketPool`. -/
  GetRocketPool : Except String RP
  /-- Result of `deposit.GetBalance(rp)`. -/
  GetBalance : RP → Except String B
  /-- Result of `minipool.GetQueueTotalLength(rp)`. -/
  GetQueueTotalLength : RP → Except String L
  /-- Result of `minipool.GetQueueTotalCapacity(rp)`. -/
  GetQueueTotalCapacity : RP → Except String C
  /-- The method `String()` of the deposit pool balance. -/
  balanceString : B → String
  /-- The conversion `int(minipoolQueueLength)`. -/
  lengthInt : L → Int
  /-- The method `String()` of the queue capacity. -/
  capacityString : C → String

/-- The memory the three goroutines share: the response being filled, and the
error of the `errgroup.Group`, which keeps the first error reported to it. -/
structure Shared where
  /-- The variable `response`. -/
  response : QueueStatusResponse
  /-- The error held by the group. -/
  err : Option String
  deriving DecidableEq, Repr

/-- What `errgroup.Group.Go` does with the error a goroutine returns: the
first error that is not nil is kept, later ones are dropped. -/
def report (s : Shared) (e : String) : Shared :=
  match s.err with
  | none => { s with err := some e }
  | some _ => s

/-- The three goroutines of lines 28-52, numbered in the order of the source. -/
def goroutine {RP B L C : Type} (env : Env RP B L C) (rp : RP) (i : Fin 3) (s : Shared) :
    Shared :=
  match i with
  | 0 =>
    match env.GetBalance rp with
    | .ok depositPoolBalance =>
      { s with response := { s.response with
          DepositPoolBalance := env.balanceString depositPoolBalance } }
    | .error e => report s e
  | 1 =>
    match env.GetQueueTotalLength rp with
    | .ok minipoolQueueLength =>
      { s with response := { s.response with
          MinipoolQueueLength := env.lengthInt minipoolQueueLength } }
    | .error e => report s e
  | 2 =>
    match env.GetQueueTotalCapacity rp with
    | .ok minipoolQueueCapacity =>
      { s with response := { s.response with
          MinipoolQueueCapacity := env.capacityString minipoolQueueCapacity } }
    | .error e => report s e

/-- The function `getStatus` of status.go (lines 14-62).  `order` is the
schedule: the order in which the three goroutines finish.  The result is the
pair the Go function returns, `none` standing for `nil`. -/
def getStatus {RP B L C : Type} (env : Env RP B L C) (order : List (Fin 3)) :
    Option QueueStatusResponse × Option String :=
  -- Get services
  match env.RequireRocketStorage with
  | some e => (none, some e)
  | none =>
  match env.GetRocketPool with
  | .error e => (none, some e)
  | .ok rp =>
  -- Response
  let response : QueueStatusResponse := ⟨"", 0, ""⟩
  -- Run the goroutines, wait for data
  let s := order.foldl (fun s i => goroutine env rp i s) ⟨response, none⟩
  match s.err with
  | some e => (none, some e)
  | none => (some s.response, none)

/-- A schedule runs each of the three goroutines once. -/
def IsSchedule (order : List (Fin 3)) : Prop := order.Perm [0, 1, 2]

instance (order : List (Fin 3)) : Decidable (IsSchedule order) := by
  unfold IsSchedule; infer_instance

/-- An environment for the examples, over integer reads, in which the
services are there and the three reads return what is given. -/
def exampleEnv (balance : Except String Int) (length : Except String Nat)
    (capacity : Except String Int) : Env Unit Int Nat Int where
  RequireRocketStorage := none
  GetRocketPool := .ok ()
  GetBalance := fun _ => balance
  GetQueueTotalLength := fun _ => length
  GetQueueTotalCapacity := fun _ => capacity
  balanceString := fun b => toString b
  lengthInt := fun l => l
  capacityString := fun c => toString c

end queue

/-! # Theorems -/

set_option maxRecDepth 100000

namespace deposits

/-! ## Shape of the deposit input -/

theorem buildWithdrawalCredentials_length (KeccakBytes : List Nat → Bytes32)
    (withdrawalPubkey : List Nat) :
    (buildWithdrawalCredentials KeccakBytes withdrawalPubkey).length = 32 := by
  simp [buildWithdrawalCredentials, (KeccakBytes withdrawalPubkey).property]

theorem depositInputLength_eq (pubkey creds proofOfPossession : List Nat) :
    depositInputLength pubkey creds proofOfPossession =
      [(pubkey.length + creds.length + proofOfPossession.length) % 256, 0, 0, 0] := by
  simp [depositInputLength, List.replicate]

/-- The deposit input is the four bytes of `depositInputLength`, then the
pubkey, the withdrawal credentials and the proof of possession. -/
theorem buildDepositInput_eq (KeccakBytes : List Nat → Bytes32)
    (pubkey withdrawalPubkey proofOfPossession : List Nat) :
    buildDepositInput KeccakBytes pubkey withdrawalPubkey proofOfPossession =
      [(pubkey.length + 32 + proofOfPossession.length) % 256, 0, 0, 0] ++ pubkey ++
        buildWithdrawalCredentials KeccakBytes withdrawalPubkey ++ proofOfPossession := by
  simp [buildDepositInput, bytesJoin, depositInputLength_eq,
    buildWithdrawalCredentials_length, List.intercalate, List.intersperse]

theorem buildDepositInput_length (KeccakBytes : List Nat → Bytes32)
    (pubkey withdrawalPubkey proofOfPossession : List Nat) :
    (buildDepositInput KeccakBytes pubkey withdrawalPubkey proofOfPossession).length =
      4 + pubkey.length + 32 + proofOfPossession.length := by
  simp [buildDepositInput_eq, buildWithdrawalCredentials_length]
  omega

theorem withdrawalPubkey_length : withdrawalPubkey.length = 48 := by decide

/-- C1, as the claim states it, fails on the constants of the source with a
hash whose digests are all `0xAA`: the deposit input is 180 bytes long, not
177, and neither the pubkey nor the withdrawal credentials nor the proof of
possession sit at the offsets 1, 49 and 81. -/
theorem depositInput_one_length_byte_counterexample :
    pubkey.length = 48 ∧ proofOfPossession.length = 96 ∧
    (buildDepositInput hashAA pubkey withdrawalPubkey proofOfPossession).length = 180 ∧
    (buildDepositInput hashAA pubkey withdrawalPubkey proofOfPossession).length ≠ 177 ∧
    ((buildDepositInput hashAA pubkey withdrawalPubkey proofOfPossession).drop 1).take 48
      ≠ pubkey ∧
    ((buildDepositInput hashAA pubkey withdrawalPubkey proofOfPossession).drop 49).take 32
      ≠ buildWithdrawalCredentials hashAA withdrawalPubkey ∧
    ((buildDepositInput hashAA pubkey withdrawalPubkey proofOfPossession).drop 81).take 96
      ≠ proofOfPossession := by
  decide

/-- C1, amended: for every 48-byte pubkey, every withdrawal pubkey and every
96-byte proof of possession the deposit input is four length bytes (the total
176, then three zero bytes), then the pubkey, the 32-byte withdrawal
credentials and the proof of possession; it is 180 bytes long, the pubkey
occupies bytes 4..51, the withdrawal credentials bytes 52..83 and the proof
bytes 84..179. -/
theorem depositInput_layout (KeccakBytes : List Nat → Bytes32)
    (pubkey withdrawalPubkey proofOfPossession : List Nat)
    (hpub : pubkey.length = 48) (hproof : proofOfPossession.length = 96) :
    buildDepositInput KeccakBytes pubkey withdrawalPubkey proofOfPossession =
        [176, 0, 0, 0] ++ pubkey ++ buildWithdrawalCredentials KeccakBytes withdrawalPubkey
          ++ proofOfPossession ∧
    (buildDepositInput KeccakBytes pubkey withdrawalPubkey proofOfPossession).length = 180 ∧
    (buildDepositInput KeccakBytes pubkey withdrawalPubkey proofOfPossession).take 4
      = [176, 0, 0, 0] ∧
    ((buildDepositInput KeccakBytes pubkey withdrawalPubkey proofOfPossession).drop 4).take 48
      = pubkey ∧
    (buildWithdrawalCredentials KeccakBytes withdrawalPubkey).length = 32 ∧
    ((buildDepositInput KeccakBytes pubkey withdrawalPubkey proofOfPossession).drop 52).take 32
      = buildWithdrawalCredentials KeccakBytes withdrawalPubkey ∧
    ((buildDepositInput KeccakBytes pubkey withdrawalPubkey proofOfPossession).drop 84).take 96
      = proofOfPossession := by
  have hc := buildWithdrawalCredentials_length KeccakBytes withdrawalPubkey
  have heq : buildDepositInput KeccakBytes pubkey withdrawalPubkey proofOfPossession =
      [176, 0, 0, 0] ++ (pubkey ++ (buildWithdrawalCredentials KeccakBytes withdrawalPubkey
        ++ proofOfPossession)) := by
    rw [buildDepositInput_eq, hpub, hproof]
    simp
  refine ⟨by rw [heq]; simp, ?_, ?_, ?_, hc, ?_, ?_⟩
  · rw [buildDepositInput_length, hpub, hproof]
  · rw [heq]; rfl
  · rw [heq]
    show List.take 48 (pubkey ++ _) = pubkey
    rw [List.take_append_of_le_length (by omega), List.take_of_length_le (by omega)]
  · rw [heq]
    have h1 : List.drop 52 ([176, 0, 0, 0] ++ (pubkey ++
        (buildWithdrawalCredentials KeccakBytes withdrawalPubkey ++ proofOfPossession))) =
        buildWithdrawalCredentials KeccakBytes withdrawalPubkey ++ proofOfPossession := by
      show List.drop 48 (pubkey ++ _) = _
      rw [← hpub, List.drop_left]
    rw [h1, List.take_append_of_le_length (by omega), List.take_of_length_le (by omega)]
  · rw [heq]
    have h1 : List.drop 84 ([176, 0, 0, 0] ++ (pubkey ++
        (buildWithdrawalCredentials KeccakBytes withdrawalPubkey ++ proofOfPossession))) =
        proofOfPossession := by
      show List.drop 80 (pubkey ++ _) = _
      rw [show (80 : Nat) = pubkey.length + 32 by omega, ← List.drop_drop, List.drop_left,
        ← hc, List.drop_left]
    rw [h1, List.take_of_length_le (by omega)]

/-- C1, amended, at the constants of the source and the hash `hashAA`. -/
theorem depositInput_layout_witness :
    buildDepositInput hashAA pubkey withdrawalPubkey proofOfPossession =
        [176, 0, 0, 0] ++ pubkey ++ buildWithdrawalCredentials hashAA withdrawalPubkey
          ++ proofOfPossession ∧
    (buildDepositInput hashAA pubkey withdrawalPubkey proofOfPossession).length = 180 ∧
    (buildDepositInput hashAA pubkey withdrawalPubkey proofOfPossession).take 4
      = [176, 0, 0, 0] ∧
    ((buildDepositInput hashAA pubkey withdrawalPubkey proofOfPossession).drop 4).take 48
      = pubkey ∧
    (buildWithdrawalCredentials hashAA withdrawalPubkey).length = 32 ∧
    ((buildDepositInput hashAA pubkey withdrawalPubkey proofOfPossession).drop 52).take 32
      = buildWithdrawalCredentials hashAA withdrawalPubkey ∧
    ((buildDepositInput hashAA pubkey withdrawalPubkey proofOfPossession).drop 84).take 96
      = proofOfPossession :=
  depositInput_layout hashAA pubkey withdrawalPubkey proofOfPossession (by decide) (by decide)

/-- C2: byte 0 of the deposit input is the sum of the three lengths (the
withdrawal credentials being 32 bytes) reduced modulo 256, whatever the pubkey
and the proof of possession are; for a 48-byte pubkey and a 96-byte proof it
is 176. -/
theorem depositInput_first_byte (KeccakBytes : List Nat → Bytes32)
    (pubkey withdrawalPubkey proofOfPossession : List Nat) :
    (buildDepositInput KeccakBytes pubkey withdrawalPubkey proofOfPossession)[0]? =
      some ((pubkey.length + 32 + proofOfPossession.length) % 256) ∧
    (pubkey.length = 48 → proofOfPossession.length = 96 →
      (buildDepositInput KeccakBytes pubkey withdrawalPubkey proofOfPossession)[0]? =
        some 176) := by
  have h0 : (buildDepositInput KeccakBytes pubkey withdrawalPubkey proofOfPossession)[0]? =
      some ((pubkey.length + 32 + proofOfPossession.length) % 256) := by
    rw [buildDepositInput_eq]
    simp
  refine ⟨h0, fun hpub hproof => ?_⟩
  rw [h0, hpub, hproof]

/-- C2 at the constants of the source: byte 0 of the deposit input is 176. -/
theorem depositInput_first_byte_witness :
    (buildDepositInput hashAA pubkey withdrawalPubkey proofOfPossession)[0]? = some 176 :=
  (depositInput_first_byte hashAA pubkey withdrawalPubkey proofOfPossession).2
    (by decide) (by decide)

/-- C3: the withdrawal credentials are 32 bytes, byte 0 is the constant 0 and
bytes 1..31 are bytes 1..31 of the digest of the withdrawal pubkey; they are
what the deposit input holds after its length bytes and the pubkey; and byte 0
is the same for any two hash functions. -/
theorem withdrawalCredentials_first_byte (KeccakBytes KeccakBytes2 : List Nat → Bytes32)
    (pubkey withdrawalPubkey proofOfPossession : List Nat) :
    (buildWithdrawalCredentials KeccakBytes withdrawalPubkey).length = 32 ∧
    (buildWithdrawalCredentials KeccakBytes withdrawalPubkey)[0]? = some 0 ∧
    (∀ i : Nat, 1 ≤ i → i < 32 →
      (buildWithdrawalCredentials KeccakBytes withdrawalPubkey)[i]? =
        (KeccakBytes withdrawalPubkey).val[i]?) ∧
    ((buildDepositInput KeccakBytes pubkey withdrawalPubkey proofOfPossession).drop
        (4 + pubkey.length)).take 32 = buildWithdrawalCredentials KeccakBytes withdrawalPubkey ∧
    (buildDepositInput KeccakBytes pubkey withdrawalPubkey proofOfPossession)[4 + pubkey.length]?
      = some 0 ∧
    (buildWithdrawalCredentials KeccakBytes withdrawalPubkey)[0]? =
      (buildWithdrawalCredentials KeccakBytes2 withdrawalPubkey)[0]? := by
  have hc := buildWithdrawalCredentials_length KeccakBytes withdrawalPubkey
  have hK := (KeccakBytes withdrawalPubkey).property
  have hK2 := (KeccakBytes2 withdrawalPubkey).property
  have h0 : ∀ K : List Nat → Bytes32, (K withdrawalPubkey).val.length = 32 →
      (buildWithdrawalCredentials K withdrawalPubkey)[0]? = some 0 := by
    intro K hlen
    unfold buildWithdrawalCredentials
    rw [List.getElem?_set_self]
    simp [hlen]
  have hdrop : (buildDepositInput KeccakBytes pubkey withdrawalPubkey proofOfPossession).drop
      (4 + pubkey.length) =
      buildWithdrawalCredentials KeccakBytes withdrawalPubkey ++ proofOfPossession := by
    rw [buildDepositInput_eq]
    have : [(pubkey.length + 32 + proofOfPossession.length) % 256, 0, 0, 0] ++ pubkey ++
        buildWithdrawalCredentials KeccakBytes withdrawalPubkey ++ proofOfPossession =
        ([(pubkey.length + 32 + proofOfPossession.length) % 256, 0, 0, 0] ++ pubkey) ++
        (buildWithdrawalCredentials KeccakBytes withdrawalPubkey ++ proofOfPossession) := by
      simp
    rw [this]
    have hl : 4 + pubkey.length =
        ([(pubkey.length + 32 + proofOfPossession.length) % 256, 0, 0, 0] ++ pubkey).length := by
      simp; omega
    rw [hl, List.drop_left]
  refine ⟨hc, h0 KeccakBytes hK, ?_, ?_, ?_, ?_⟩
  · intro i h1 _
    unfold buildWithdrawalCredentials
    rw [List.getElem?_set_ne (by omega)]
  · rw [hdrop, List.take_append_of_le_length (by omega), List.take_of_length_le (by omega)]
  · have := h0 KeccakBytes hK
    have h4 : (buildDepositInput KeccakBytes pubkey withdrawalPubkey
        proofOfPossession)[4 + pubkey.length]? =
        ((buildDepositInput KeccakBytes pubkey withdrawalPubkey proofOfPossession).drop
          (4 + pubkey.length))[0]? := by
      rw [List.getElem?_drop]; rfl
    rw [h4, hdrop, List.getElem?_append_left (by omega)]
    exact this
  · rw [h0 KeccakBytes hK, h0 KeccakBytes2 hK2]

/-! ## The precondition checks of `reserveDeposit` -/

/-- A run of `reserveDepositWith` submits at most one transaction. -/
theorem reserveDepositWith_transact_le_one {S : Type} (env : Env S)
    (pk wpk pop : List Nat) (chain : S) (durationId : String) :
    (reserveDepositWith env pk wpk pop chain durationId).trace.countP Event.isTransact ≤ 1 := by
  unfold reserveDepositWith
  repeat' split
  all_goals try (dsimp only; split)
  all_goals simp [List.countP_cons, Event.isTransact]

/-- A run of `reserveDepositWith` that submits a transaction found all four
preconditions satisfied. -/
theorem reserveDepositWith_transact_only_if {S : Type} (env : Env S)
    (pk wpk pop : List Nat) (chain : S) (durationId : String)
    (h : (reserveDepositWith env pk wpk pop chain durationId).trace.any Event.isTransact = true) :
    env.NodeAccountExists = true ∧
    ∃ addr, env.getContract chain env.nodeAccountAddress = .ok addr ∧
      addr ≠ makeBytes AddressLength ∧
      env.getDepositAllowed chain = .ok true ∧
      env.getHasDepositReservation chain addr = .ok false := by
  unfold reserveDepositWith at h
  repeat' split at h
  all_goals simp_all [Event.isTransact]

/-- A run of `reserveDepositWith` without a transaction leaves the chain state
as it was. -/
theorem reserveDepositWith_chain_unchanged {S : Type} (env : Env S)
    (pk wpk pop : List Nat) (chain : S) (durationId : String)
    (h : (reserveDepositWith env pk wpk pop chain durationId).trace.any Event.isTransact = false) :
    (reserveDepositWith env pk wpk pop chain durationId).chain = chain := by
  unfold reserveDepositWith at h ⊢
  repeat' split at h
  all_goals try (dsimp only at h; split at h)
  all_goals simp_all [Event.isTransact]

/-- C7: `reserveDeposit` checks, in this order, that the node account exists,
that the node is registered (its contract address is not the zero address),
that node deposits are allowed and that the node has no deposit reservation.
At the first check that fails (the reads before it having succeeded) the run
is exactly: the reads up to that check, then the one line naming the reason;
no later read, no transaction, no error, the chain state as it was.  Any run
submits at most one transaction, and a run that submits one found all four
preconditions satisfied; when they are satisfied and no collaborator fails the
transaction is submitted.  Run twice in a row on a node with a reservation,
it prints the existing-reservation line both times, submits nothing and leaves
the chain state as it was. -/
theorem reserveDeposit_precondition_order {S : Type} (env : Env S) (chain : S)
    (durationId : String) :
    (env.NodeAccountExists = false →
      reserveDeposit env chain durationId =
        ⟨[.print "Node account does not exist, please initialize with `rocketpool node init`"],
          none, chain⟩) ∧
    (env.NodeAccountExists = true → env.Dial = none → env.NewContractManager = none →
      env.LoadContracts = none → env.LoadABIs = none →
      env.getContract chain env.nodeAccountAddress = .ok (makeBytes AddressLength) →
      reserveDeposit env chain durationId =
        ⟨[.dial, .newContractManager, .loadContracts ["rocketNodeAPI", "rocketNodeSettings"],
          .loadABIs ["rocketNodeContract"], .call "rocketNodeAPI" "getContract",
          .print "Node is not registered with Rocket Pool, please register with `rocketpool node register`"],
          none, chain⟩) ∧
    (∀ addr : List Nat,
      env.NodeAccountExists = true → env.Dial = none → env.NewContractManager = none →
      env.LoadContracts = none → env.LoadABIs = none →
      env.getContract chain env.nodeAccountAddress = .ok addr →
      addr ≠ makeBytes AddressLength →
      env.getDepositAllowed chain = .ok false →
      reserveDeposit env chain durationId =
        ⟨[.dial, .newContractManager, .loadContracts ["rocketNodeAPI", "rocketNodeSettings"],
          .loadABIs ["rocketNodeContract"], .call "rocketNodeAPI" "getContract",
          .call "rocketNodeSettings" "getDepositAllowed",
          .print "Node deposits are currently disabled in Rocket Pool"],
          none, chain⟩) ∧
    (∀ addr : List Nat,
      env.NodeAccountExists = true → env.Dial = none → env.NewContractManager = none →
      env.LoadContracts = none → env.LoadABIs = none →
      env.getContract chain env.nodeAccountAddress = .ok addr →
      addr ≠ makeBytes AddressLength →
      env.getDepositAllowed chain = .ok true →
      env.NewContract addr = none →
      env.getHasDepositReservation chain addr = .ok true →
      reserveDeposit env chain durationId =
          ⟨[.dial, .newContractManager, .loadContracts ["rocketNodeAPI", "rocketNodeSettings"],
            .loadABIs ["rocketNodeContract"], .call "rocketNodeAPI" "getContract",
            .call "rocketNodeSettings" "getDepositAllowed",
            .newContract addr "rocketNodeContract",
            .call "rocketNodeContract" "getHasDepositReservation",
            .print "Node has an existing deposit reservation, please cancel or finalize it"],
            none, chain⟩ ∧
        reserveDeposit env (reserveDeposit env chain durationId).chain durationId =
          reserveDeposit env chain durationId ∧
        printed (reserveDeposit env chain durationId).trace =
          ["Node has an existing deposit reservation, please cancel or finalize it"] ∧
        (reserveDeposit env chain durationId).trace.any Event.isTransact = false ∧
        (reserveDeposit env chain durationId).chain = chain) ∧
    (reserveDeposit env chain durationId).trace.countP Event.isTransact ≤ 1 ∧
    ((reserveDeposit env chain durationId).trace.any Event.isTransact = true →
      env.NodeAccountExists = true ∧
      ∃ addr, env.getContract chain env.nodeAccountAddress = .ok addr ∧
        addr ≠ makeBytes AddressLength ∧
        env.getDepositAllowed chain = .ok true ∧
        env.getHasDepositReservation chain addr = .ok false) ∧
    ((reserveDeposit env chain durationId).trace.any Event.isTransact = false →
      (reserveDeposit env chain durationId).chain = chain) ∧
    (∀ addr : List Nat,
      env.NodeAccountExists = true → env.Dial = none → env.NewContractManager = none →
      env.LoadContracts = none → env.LoadABIs = none →
      env.getContract chain env.nodeAccountAddress = .ok addr →
      addr ≠ makeBytes AddressLength →
      env.getDepositAllowed chain = .ok true →
      env.NewContract addr = none →
      env.getHasDepositReservation chain addr = .ok false →
      env.GetNodeAccountTransactor = none →
      (reserveDeposit env chain durationId).trace.countP Event.isTransact = 1) := by
  refine ⟨?_, ?_, ?_, ?_, ?_, ?_, ?_, ?_⟩
  · intro h
    simp [reserveDeposit, reserveDepositWith, h]
  · intro h1 h2 h3 h4 h5 h6
    simp [reserveDeposit, reserveDepositWith, h1, h2, h3, h4, h5, h6]
  · intro addr h1 h2 h3 h4 h5 h6 h7 h8
    simp [reserveDeposit, reserveDepositWith, h1, h2, h3, h4, h5, h6, h7, h8]
  · intro addr h1 h2 h3 h4 h5 h6 h7 h8 h9 h10
    have hrun : reserveDeposit env chain durationId =
        ⟨[.dial, .newContractManager, .loadContracts ["rocketNodeAPI", "rocketNodeSettings"],
          .loadABIs ["rocketNodeContract"], .call "rocketNodeAPI" "getContract",
          .call "rocketNodeSettings" "getDepositAllowed",
          .newContract addr "rocketNodeContract",
          .call "rocketNodeContract" "getHasDepositReservation",
          .print "Node has an existing deposit reservation, please cancel or finalize it"],
          none, chain⟩ := by
      simp [reserveDeposit, reserveDepositWith, h1, h2, h3, h4, h5, h6, h7, h8, h9, h10]
    refine ⟨hrun, ?_, ?_, ?_, ?_⟩
    · rw [hrun]; exact hrun
    · rw [hrun]; rfl
    · rw [hrun]; rfl
    · rw [hrun]
  · exact reserveDepositWith_transact_le_one env _ _ _ chain durationId
  · exact reserveDepositWith_transact_only_if env _ _ _ chain durationId
  · exact reserveDepositWith_chain_unchanged env _ _ _ chain durationId
  · intro addr h1 h2 h3 h4 h5 h6 h7 h8 h9 h10 h11
    cases hr : env.depositReserve chain addr durationId
        (buildDepositInput env.KeccakBytes pubkey withdrawalPubkey proofOfPossession) <;>
      simp [reserveDeposit, reserveDepositWith, h1, h2, h3, h4, h5, h6, h7, h8, h9, h10, h11,
        hr, List.countP_cons, Event.isTransact]

/-- C7 at `exampleEnv`: on a chain where the node has a reservation two runs in
a row print the existing-reservation line, and the chain still holds the
reservation; on a chain where it has none, one transaction is submitted. -/
theorem reserveDeposit_precondition_order_witness :
    printed (reserveDeposit exampleEnv true "3m").trace =
      ["Node has an existing deposit reservation, please cancel or finalize it"] ∧
    printed (reserveDeposit exampleEnv (reserveDeposit exampleEnv true "3m").chain "3m").trace =
      ["Node has an existing deposit reservation, please cancel or finalize it"] ∧
    (reserveDeposit exampleEnv (reserveDeposit exampleEnv true "3m").chain "3m").chain = true ∧
    (reserveDeposit exampleEnv true "3m").trace.any Event.isTransact = false ∧
    (reserveDeposit exampleEnv false "3m").trace.countP Event.isTransact = 1 := by
  have h := (reserveDeposit_precondition_order exampleEnv true "3m").2.2.2.1
    (List.replicate 20 2) rfl rfl rfl rfl rfl rfl (by decide) rfl rfl rfl
  have h1 := (reserveDeposit_precondition_order exampleEnv false "3m").2.2.2.2.2.2.2
    (List.replicate 20 2) rfl rfl rfl rfl rfl rfl (by decide) rfl rfl rfl rfl
  obtain ⟨_, htwice, hprinted, hnone, hchain⟩ := h
  refine ⟨hprinted, ?_, ?_, hnone, h1⟩
  · rw [htwice]; exact hprinted
  · rw [htwice]; exact hchain

end deposits

namespace float64

/-! ## `float64` arithmetic -/

theorem log2_of_bounds (n k : Nat) (h1 : 2 ^ k ≤ n) (h2 : n < 2 ^ (k + 1)) :
    Nat.log2 n = k := by
  have hn : n ≠ 0 := by
    have : 0 < 2 ^ k := Nat.two_pow_pos k
    omega
  have hle : k ≤ n.log2 := (Nat.le_log2 hn).2 h1
  have hlt : n.log2 < k + 1 := (Nat.log2_lt hn).2 h2
  omega

/-- Rounding a quotient whose binade is known. -/
theorem ofUnits_of_bounds (neg : Bool) (num den k : Nat)
    (h1 : 2 ^ k ≤ num / den) (h2 : num / den < 2 ^ (k + 1)) :
    ofUnits neg num den =
      if 2 ^ 2098 ≤ roundAt (k - 52) num den then inf neg
      else finite neg (roundAt (k - 52) num den) := by
  unfold ofUnits roundUnits
  rw [log2_of_bounds _ _ h1 h2]

/-- The sum of two finite values whose exact sum is `s`, not zero, in a known
binade. -/
theorem add_finite_of_bounds (a b : Bool) (x y k : Nat) (s : Int)
    (hs : units a x + units b y = s) (h0 : s ≠ 0)
    (h1 : 2 ^ k ≤ s.natAbs / 1) (h2 : s.natAbs / 1 < 2 ^ (k + 1)) :
    add (finite a x) (finite b y) =
      if 2 ^ 2098 ≤ roundAt (k - 52) s.natAbs 1 then inf (decide (s < 0))
      else finite (decide (s < 0)) (roundAt (k - 52) s.natAbs 1) := by
  show (if units a x + units b y = 0 then finite (a && b) 0
    else ofUnits (decide (units a x + units b y < 0)) (units a x + units b y).natAbs 1) = _
  rw [hs, if_neg h0]
  exact ofUnits_of_bounds _ _ _ k h1 h2

/-- No value is less than itself. -/
theorem lt_irrefl (x : float64) : lt x x = false := by
  cases x <;> simp [lt]

/-- On finite values `lt` is the order of the exact values. -/
theorem lt_iff_toRat (x y : float64) (p q : ℚ) (hx : x.toRat = some p)
    (hy : y.toRat = some q) : lt x y = true ↔ p < q := by
  cases x <;> cases y <;> simp [toRat] at hx hy
  subst hx; subst hy
  simp only [lt, decide_eq_true_eq]
  rw [div_lt_div_iff_of_pos_right (by positivity)]
  exact Int.cast_lt.symm

/-- The exact value of a finite `float64` given by an odd mantissa. -/
theorem toRat_finite_pos (m e : Nat) (he : e ≤ 1074) :
    toRat (finite false (m * 2 ^ e)) = some ((m : ℚ) / 2 ^ (1074 - e)) := by
  simp only [toRat, units, Bool.false_eq_true, if_false, Option.some.injEq]
  have h2 : (2 : ℚ) ^ 1074 = 2 ^ e * 2 ^ (1074 - e) := by
    rw [← pow_add]; congr 1; omega
  rw [h2]
  push_cast
  field_simp
  ring

/-- The exact value of a negative finite `float64`. -/
theorem toRat_finite_neg (m e : Nat) (he : e ≤ 1074) :
    toRat (finite true (m * 2 ^ e)) = some (-((m : ℚ) / 2 ^ (1074 - e))) := by
  simp only [toRat, units, if_true, Option.some.injEq]
  have h2 : (2 : ℚ) ^ 1074 = 2 ^ e * 2 ^ (1074 - e) := by
    rw [← pow_add]; congr 1; omega
  rw [h2]
  push_cast
  field_simp
  ring

/-- The `float64` of 0.1. -/
theorem ofDecimal_0_1 :
    ofDecimal false 1 10 = finite false (3602879701896397 * 2 ^ 1019) := by
  unfold ofDecimal
  rw [ofUnits_of_bounds false _ _ 1070 (by decide!) (by decide!)]
  decide!

/-- The `float64` of 0.03. -/
theorem ofDecimal_0_03 :
    ofDecimal false 3 100 = finite false (1080863910568919 * 2 ^ 1019) := by
  unfold ofDecimal
  rw [ofUnits_of_bounds false _ _ 1068 (by decide!) (by decide!)]
  decide!

/-- The `float64` of 0.05. -/
theorem ofDecimal_0_05 :
    ofDecimal false 5 100 = finite false (3602879701896397 * 2 ^ 1018) := by
  unfold ofDecimal
  rw [ofUnits_of_bounds false _ _ 1069 (by decide!) (by decide!)]
  decide!

/-- The `float64` of 0.04. -/
theorem ofDecimal_0_04 :
    ofDecimal false 4 100 = finite false (5764607523034235 * 2 ^ 1017) := by
  unfold ofDecimal
  rw [ofUnits_of_bounds false _ _ 1069 (by decide!) (by decide!)]
  decide!

/-- The `float64` of 0.035. -/
theorem ofDecimal_0_035 :
    ofDecimal false 35 1000 = finite false (1261007895663739 * 2 ^ 1019) := by
  unfold ofDecimal
  rw [ofUnits_of_bounds false _ _ 1069 (by decide!) (by decide!)]
  decide!

/-- The `float64` of -0.01. -/
theorem ofDecimal_neg_0_01 :
    ofDecimal true 1 100 = finite true (5764607523034235 * 2 ^ 1015) := by
  unfold ofDecimal
  rw [ofUnits_of_bounds true _ _ 1067 (by decide!) (by decide!)]
  decide!

/-- In `float64`, 0.1 + (-0.01) is 0.09000000000000001. -/
theorem add_0_1 :
    add (finite false (3602879701896397 * 2 ^ 1019)) (finite true (5764607523034235 * 2 ^ 1015))
      = finite false (6485183463413515 * 2 ^ 1018) := by
  rw [add_finite_of_bounds _ _ _ _ 1070
    (3602879701896397 * 2 ^ 1019 - 5764607523034235 * 2 ^ 1015)
    (by decide!) (by decide!) (by decide!) (by decide!)]
  decide!

/-- In `float64`, 0.05 + (-0.01) is 0.04. -/
theorem add_0_05 :
    add (finite false (3602879701896397 * 2 ^ 1018)) (finite true (5764607523034235 * 2 ^ 1015))
      = finite false (5764607523034235 * 2 ^ 1017) := by
  rw [add_finite_of_bounds _ _ _ _ 1069
    (3602879701896397 * 2 ^ 1018 - 5764607523034235 * 2 ^ 1015)
    (by decide!) (by decide!) (by decide!) (by decide!)]
  decide!

/-- In `float64`, 0.035 + (-0.01) is 0.025. -/
theorem add_0_035 :
    add (finite false (1261007895663739 * 2 ^ 1019)) (finite true (5764607523034235 * 2 ^ 1015))
      = finite false (3602879701896397 * 2 ^ 1017) := by
  rw [add_finite_of_bounds _ _ _ _ 1068
    (1261007895663739 * 2 ^ 1019 - 5764607523034235 * 2 ^ 1015)
    (by decide!) (by decide!) (by decide!) (by decide!)]
  decide!

end float64

namespace node

/-! ## `nodeDeposit` -/

/-- A run of `nodeDeposit` that obtains the client and the node status starts
with the selection among the options for that status and a call of
`CanNodeDeposit` for the amount the switch gives. -/
theorem nodeDeposit_trace_start (env : Env) (trusted : Bool)
    (hclient : env.NewClientFromCtx = none) (hstatus : env.NodeStatus = .ok trusted) :
    ∃ rest, (nodeDeposit env).trace =
      [.newClient, .nodeStatus,
        .select "Please choose an amount of ETH to deposit:" (amountOptions trusted),
        .canNodeDeposit (env.EthToWei (amount
          (env.Select "Please choose an amount of ETH to deposit:" (amountOptions trusted))))]
        ++ rest := by
  simp only [nodeDeposit, nodeDepositBody, hclient, hstatus]
  repeat' split
  all_goals simp

/-- The suggested fee for the fees 0.1 and 0.03, as `float64` values. -/
theorem suggestedMinNodeFee_0_1 :
    suggestedMinNodeFee ⟨float64.ofDecimal false 1 10, float64.ofDecimal false 3 100⟩ =
      float64.finite false (6485183463413515 * 2 ^ 1018) := by
  simp only [suggestedMinNodeFee, SuggestedNodeFeeDelta, float64.ofDecimal_0_1,
    float64.ofDecimal_0_03, float64.ofDecimal_neg_0_01, float64.add_0_1]
  decide!

/-- C4, as the claim states it, fails for the fees 0.1 and 0.03 (the `float64`
values nearest to them): the suggested fee is 6485183463413515 / 2 ^ 56, which
prints as 0.09000000000000001, and that is neither the exact difference of
the current fee and 1/100 nor 0.09. -/
theorem suggestedMinNodeFee_exact_counterexample :
    float64.toRat (float64.ofDecimal false 1 10) = some (3602879701896397 / 2 ^ 55) ∧
    float64.toRat (float64.ofDecimal false 3 100) = some (1080863910568919 / 2 ^ 55) ∧
    float64.toRat
        (suggestedMinNodeFee ⟨float64.ofDecimal false 1 10, float64.ofDecimal false 3 100⟩) =
      some (6485183463413515 / 2 ^ 56) ∧
    (6485183463413515 / 2 ^ 56 : ℚ) ≠
      max (3602879701896397 / 2 ^ 55 - 1 / 100) (1080863910568919 / 2 ^ 55) ∧
    (6485183463413515 / 2 ^ 56 : ℚ) ≠ max (1 / 10 - 1 / 100) (3 / 100) := by
  refine ⟨?_, ?_, ?_, ?_, ?_⟩
  · rw [float64.ofDecimal_0_1, float64.toRat_finite_pos _ _ (by decide)]
    norm_num
  · rw [float64.ofDecimal_0_03, float64.toRat_finite_pos _ _ (by decide)]
    norm_num
  · rw [suggestedMinNodeFee_0_1, float64.toRat_finite_pos _ _ (by decide)]
    norm_num
  · rw [max_eq_left (by norm_num)]
    norm_num
  · rw [max_eq_left (by norm_num)]
    norm_num

/-- C4, amended: in `float64` arithmetic the suggested minimum node fee is the
larger of the sum `NodeFee + (-0.01)` and the network minimum fee, where -0.01
is the `float64` nearest to -1/100 and the sum is rounded to the nearest
`float64`.  It is never below the network minimum; it is the rounded sum
whenever that is not below the minimum, and the minimum otherwise; on finite
values it is the maximum of the two.  For the fees 0.05 and 0.03 it is 0.04,
and for 0.035 and 0.03 it is 0.03.  It is the suggestion `nodeDeposit` passes
to the prompt for the minimum node fee. -/
theorem suggestedMinNodeFee_eq_max (env : Env) (nodeFees : NodeFeeResponse) :
    float64.toRat SuggestedNodeFeeDelta = some (-(5764607523034235 / 2 ^ 59)) ∧
    float64.lt (suggestedMinNodeFee nodeFees) nodeFees.MinNodeFee = false ∧
    (float64.lt (float64.add nodeFees.NodeFee SuggestedNodeFeeDelta) nodeFees.MinNodeFee = false →
      suggestedMinNodeFee nodeFees = float64.add nodeFees.NodeFee SuggestedNodeFeeDelta) ∧
    (float64.lt (float64.add nodeFees.NodeFee SuggestedNodeFeeDelta) nodeFees.MinNodeFee = true →
      suggestedMinNodeFee nodeFees = nodeFees.MinNodeFee) ∧
    (∀ sum minimum : ℚ,
      float64.toRat (float64.add nodeFees.NodeFee SuggestedNodeFeeDelta) = some sum →
      float64.toRat nodeFees.MinNodeFee = some minimum →
      float64.toRat (suggestedMinNodeFee nodeFees) = some (max sum minimum)) ∧
    suggestedMinNodeFee ⟨float64.ofDecimal false 5 100, float64.ofDecimal false 3 100⟩ =
      float64.ofDecimal false 4 100 ∧
    suggestedMinNodeFee ⟨float64.ofDecimal false 35 1000, float64.ofDecimal false 3 100⟩ =
      float64.ofDecimal false 3 100 ∧
    (∀ (trusted : Bool) (canDeposit : CanNodeDepositResponse),
      env.NewClientFromCtx = none → env.NodeStatus = .ok trusted →
      env.CanNodeDeposit (env.EthToWei (amount
        (env.Select "Please choose an amount of ETH to deposit:" (amountOptions trusted))))
        = .ok canDeposit →
      canDeposit.CanDeposit = true → env.NodeFee = .ok nodeFees →
      Event.promptMinNodeFee nodeFees.NodeFee (suggestedMinNodeFee nodeFees) ∈
        (nodeDeposit env).trace) := by
  refine ⟨?_, ?_, ?_, ?_, ?_, ?_, ?_, ?_⟩
  · rw [SuggestedNodeFeeDelta, float64.ofDecimal_neg_0_01,
      float64.toRat_finite_neg _ _ (by decide)]
    norm_num
  · unfold suggestedMinNodeFee
    dsimp only
    split
    · exact float64.lt_irrefl _
    · next h => simpa using h
  · intro h
    simp [suggestedMinNodeFee, h]
  · intro h
    simp [suggestedMinNodeFee, h]
  · intro sum minimum hsum hmin
    have hiff := float64.lt_iff_toRat _ _ sum minimum hsum hmin
    unfold suggestedMinNodeFee
    dsimp only
    split
    · next h =>
      rw [hmin, max_eq_right (le_of_lt (hiff.1 h))]
    · next h =>
      have hn : ¬ sum < minimum := fun hlt => h (hiff.2 hlt)
      rw [hsum, max_eq_left (not_lt.1 hn)]
  · simp only [suggestedMinNodeFee, SuggestedNodeFeeDelta, float64.ofDecimal_0_05,
      float64.ofDecimal_0_03, float64.ofDecimal_0_04, float64.ofDecimal_neg_0_01,
      float64.add_0_05]
    decide!
  · simp only [suggestedMinNodeFee, SuggestedNodeFeeDelta, float64.ofDecimal_0_035,
      float64.ofDecimal_0_03, float64.ofDecimal_neg_0_01, float64.add_0_035]
    decide!
  · intro trusted canDeposit hclient hstatus hcan hok hfee
    cases hdep : env.NodeDeposit (env.EthToWei (amount
        (env.Select "Please choose an amount of ETH to deposit:" (amountOptions trusted))))
        (env.promptMinNodeFee nodeFees.NodeFee (suggestedMinNodeFee nodeFees)) <;>
      simp [nodeDeposit, nodeDepositBody, hclient, hstatus, hcan, hok, hfee, hdep]

/-- C4, amended, at the example environment, where the fees are the `float64`
values of 0.05 and 0.03: the prompt for the minimum node fee is given the
`float64` value of 0.04 as the suggestion. -/
theorem suggestedMinNodeFee_eq_max_witness :
    Event.promptMinNodeFee (float64.ofDecimal false 5 100) (float64.ofDecimal false 4 100) ∈
      (nodeDeposit (exampleEnv 0 ⟨true, false, false, false⟩)).trace := by
  have h := suggestedMinNodeFee_eq_max (exampleEnv 0 ⟨true, false, false, false⟩)
    ⟨float64.ofDecimal false 5 100, float64.ofDecimal false 3 100⟩
  have hmem := h.2.2.2.2.2.2.2 false ⟨true, false, false, false⟩ rfl rfl rfl rfl rfl
  rw [h.2.2.2.2.2.1] at hmem
  exact hmem

/-- C5: the amounts on offer are exactly 32 and 16 for a node that is not
trusted and exactly 32, 16 and 0 for a trusted one; they are the numbers the
option labels start with; the switch maps the indices 0, 1, 2 to 32, 16, 0;
an option of value 0 is on offer if and only if the node is trusted; and the
list shown by the selection prompt is the option list for the node status. -/
theorem offeredAmounts_by_trust (env : Env) (trusted : Bool) :
    offeredAmounts false = [32, 16] ∧
    offeredAmounts true = [32, 16, 0] ∧
    (amountOptions false).length = 2 ∧ (amountOptions true).length = 3 ∧
    (amountOptions trusted).map labelAmount = offeredAmounts trusted ∧
    amount 0 = 32 ∧ amount 1 = 16 ∧ amount 2 = 0 ∧
    ((0 : ℚ) ∈ offeredAmounts trusted ↔ trusted = true) ∧
    (env.NewClientFromCtx = none → env.NodeStatus = .ok trusted →
      Event.select "Please choose an amount of ETH to deposit:" (amountOptions trusted) ∈
        (nodeDeposit env).trace ∧
      ∀ question options, Event.select question options ∈ (nodeDeposit env).trace →
        options = amountOptions trusted) := by
  have hf : offeredAmounts false = [32, 16] := by
    simp [offeredAmounts, amountOptions, List.range_succ, amount]
  have ht : offeredAmounts true = [32, 16, 0] := by
    simp [offeredAmounts, amountOptions, List.range_succ, amount]
  refine ⟨hf, ht, by decide, by decide, ?_, by simp [amount], by simp [amount],
    by simp [amount], ?_, ?_⟩
  · cases trusted
    · rw [hf]; simp [amountOptions, labelAmount]
    · rw [ht]; simp [amountOptions, labelAmount]
  · cases trusted
    · rw [hf]; simp
    · rw [ht]; simp
  · intro hclient hstatus
    constructor
    · obtain ⟨rest, hrest⟩ := nodeDeposit_trace_start env trusted hclient hstatus
      rw [hrest]; simp
    · intro question options hmem
      simp only [nodeDeposit, nodeDepositBody, hclient, hstatus] at hmem
      repeat' split at hmem
      all_goals simp_all

/-- C5 at the example environment, whose node is not trusted: the selection
prompt shows the two options of values 32 and 16. -/
theorem offeredAmounts_by_trust_witness :
    Event.select "Please choose an amount of ETH to deposit:" (amountOptions false) ∈
      (nodeDeposit (exampleEnv 0 ⟨true, false, false, false⟩)).trace ∧
    (amountOptions false).map labelAmount = [32, 16] := by
  have h := offeredAmounts_by_trust (exampleEnv 0 ⟨true, false, false, false⟩) false
  exact ⟨(h.2.2.2.2.2.2.2.2.2 rfl rfl).1, h.2.2.2.2.1.trans h.1⟩

/-- C8: when `CanNodeDeposit` answers that the deposit cannot be made, the run
of `nodeDeposit` prints the heading and then, in this fixed order, the lines
for insufficient balance, invalid amount and deposits disabled, each one if
and only if its own flag is set; it then returns without an error, having
called neither `NodeFee` nor `NodeDeposit`. -/
theorem cannotDeposit_reasons (env : Env) (trusted : Bool) (canDeposit : CanNodeDepositResponse)
    (hclient : env.NewClientFromCtx = none) (hstatus : env.NodeStatus = .ok trusted)
    (hcan : env.CanNodeDeposit (env.EthToWei (amount
      (env.Select "Please choose an amount of ETH to deposit:" (amountOptions trusted))))
      = .ok canDeposit)
    (hno : canDeposit.CanDeposit = false) :
    nodeDeposit env =
      ⟨[.newClient, .nodeStatus,
          .select "Please choose an amount of ETH to deposit:" (amountOptions trusted),
          .canNodeDeposit (env.EthToWei (amount
            (env.Select "Please choose an amount of ETH to deposit:" (amountOptions trusted)))),
          .print "Cannot make node deposit:"] ++
        (([(canDeposit.InsufficientBalance, "The node's ETH balance is insufficient."),
           (canDeposit.InvalidAmount, "The deposit amount is invalid."),
           (canDeposit.DepositDisabled, "Node deposits are currently disabled.")].filter
             Prod.fst).map fun reason => Event.print reason.2) ++
        [.close], none⟩ ∧
    (nodeDeposit env).err = none ∧
    Event.nodeFee ∉ (nodeDeposit env).trace ∧
    (∀ fee suggested, Event.promptMinNodeFee fee suggested ∉ (nodeDeposit env).trace) ∧
    (∀ amountWei minNodeFee, Event.nodeDeposit amountWei minNodeFee ∉ (nodeDeposit env).trace) := by
  have hrun : nodeDeposit env =
      ⟨[.newClient, .nodeStatus,
          .select "Please choose an amount of ETH to deposit:" (amountOptions trusted),
          .canNodeDeposit (env.EthToWei (amount
            (env.Select "Please choose an amount of ETH to deposit:" (amountOptions trusted)))),
          .print "Cannot make node deposit:"] ++
        (([(canDeposit.InsufficientBalance, "The node's ETH balance is insufficient."),
           (canDeposit.InvalidAmount, "The deposit amount is invalid."),
           (canDeposit.DepositDisabled, "Node deposits are currently disabled.")].filter
             Prod.fst).map fun reason => Event.print reason.2) ++
        [.close], none⟩ := by
    simp only [nodeDeposit, nodeDepositBody, hclient, hstatus, hcan, hno, cannotDepositLines]
    cases canDeposit.InsufficientBalance <;> cases canDeposit.InvalidAmount <;>
      cases canDeposit.DepositDisabled <;> simp [List.filter]
  refine ⟨hrun, ?_, ?_, ?_, ?_⟩
  · rw [hrun]
  · rw [hrun]
    cases canDeposit.InsufficientBalance <;> cases canDeposit.InvalidAmount <;>
      cases canDeposit.DepositDisabled <;> simp [List.filter]
  · intro fee suggested
    rw [hrun]
    cases canDeposit.InsufficientBalance <;> cases canDeposit.InvalidAmount <;>
      cases canDeposit.DepositDisabled <;> simp [List.filter]
  · intro amountWei minNodeFee
    rw [hrun]
    cases canDeposit.InsufficientBalance <;> cases canDeposit.InvalidAmount <;>
      cases canDeposit.DepositDisabled <;> simp [List.filter]

/-- C8 at the example environment with the flags for insufficient balance
and deposits disabled set and the flag for an invalid amount clear. -/
theorem cannotDeposit_reasons_witness :
    nodeDeposit (exampleEnv 1 ⟨false, true, false, true⟩) =
      ⟨[.newClient, .nodeStatus,
          .select "Please choose an amount of ETH to deposit:" (amountOptions false),
          .canNodeDeposit 16000000000000000000,
          .print "Cannot make node deposit:",
          .print "The node's ETH balance is insufficient.",
          .print "Node deposits are currently disabled.",
          .close], none⟩ := by
  have h := (cannotDeposit_reasons (exampleEnv 1 ⟨false, true, false, true⟩) false
    ⟨false, true, false, true⟩ rfl rfl rfl rfl).1
  rw [h]
  simp [exampleEnv, amount, List.filter]
  norm_num
  rfl

/-- C10: for every selected index other than 0 and 1 the amount is 0, so for
index 2, for a negative index and for an index past the end of the option
list; and then, whether the node is trusted or not, `nodeDeposit` calls
`CanNodeDeposit` with the conversion of the amount 0. -/
theorem amount_zero_other_index (env : Env) (trusted : Bool) (selected : Int)
    (h0 : selected ≠ 0) (h1 : selected ≠ 1) :
    amount selected = 0 ∧
    amount 2 = 0 ∧ amount (-1) = 0 ∧
    (∀ i : Int, ((amountOptions trusted).length : Int) ≤ i → amount i = 0) ∧
    (env.NewClientFromCtx = none → env.NodeStatus = .ok trusted →
      env.Select "Please choose an amount of ETH to deposit:" (amountOptions trusted) = selected →
      Event.canNodeDeposit (env.EthToWei 0) ∈ (nodeDeposit env).trace) := by
  have hz : amount selected = 0 := by simp [amount, h0, h1]
  refine ⟨hz, by simp [amount], by simp [amount], ?_, ?_⟩
  · intro i hi
    have h2 : (2 : Int) ≤ i := by
      cases trusted <;> simp [amountOptions] at hi <;> omega
    have : i ≠ 0 := by omega
    have : i ≠ 1 := by omega
    simp [amount, *]
  · intro hclient hstatus hsel
    obtain ⟨rest, hrest⟩ := nodeDeposit_trace_start env trusted hclient hstatus
    rw [hrest, hsel, hz]
    simp

/-- C10 at the example environment, whose node is not trusted, with the
prompt yielding the index 2: `CanNodeDeposit` is called with 0 wei. -/
theorem amount_zero_other_index_witness :
    amount 2 = 0 ∧
    Event.canNodeDeposit 0 ∈ (nodeDeposit (exampleEnv 2 ⟨false, false, true, false⟩)).trace := by
  have h := amount_zero_other_index (exampleEnv 2 ⟨false, false, true, false⟩) false 2
    (by decide) (by decide)
  refine ⟨h.1, ?_⟩
  have h4 := h.2.2.2.2 rfl rfl rfl
  simpa [exampleEnv] using h4

end node

namespace queue

/-! ## `getStatus` -/

/-- Without the services `getStatus` starts no read and returns the error of
the service that failed. -/
theorem getStatus_services_fail {RP B L C : Type} (env : Env RP B L C) (order : List (Fin 3))
    (e : String)
    (h : env.RequireRocketStorage = some e ∨
      (env.RequireRocketStorage = none ∧ env.GetRocketPool = .error e)) :
    getStatus env order = (none, some e) := by
  rcases h with h | ⟨h1, h2⟩
  · simp [getStatus, h]
  · simp [getStatus, h1, h2]

/-- C6: with the services at hand and for every schedule of the three
goroutines, `getStatus` returns a response if and only if the three reads
succeed, and then without an error and with the three fields holding the
three values read (as `String()`, `int(...)` and `String()` render them); if
a read fails, it returns no response and an error that is the error of a read
that failed.  It never returns both a response and an error, nor neither. -/
theorem getStatus_all_or_nothing {RP B L C : Type} (env : Env RP B L C)
    (order : List (Fin 3)) (rp : RP)
    (hstorage : env.RequireRocketStorage = none) (hrp : env.GetRocketPool = .ok rp)
    (horder : IsSchedule order) :
    ((getStatus env order).1.isSome = true ↔
      ∃ b l c, env.GetBalance rp = .ok b ∧ env.GetQueueTotalLength rp = .ok l ∧
        env.GetQueueTotalCapacity rp = .ok c) ∧
    (∀ b l c, env.GetBalance rp = .ok b → env.GetQueueTotalLength rp = .ok l →
      env.GetQueueTotalCapacity rp = .ok c →
      getStatus env order =
        (some ⟨env.balanceString b, env.lengthInt l, env.capacityString c⟩, none)) ∧
    (((∃ e, env.GetBalance rp = .error e) ∨ (∃ e, env.GetQueueTotalLength rp = .error e) ∨
        (∃ e, env.GetQueueTotalCapacity rp = .error e)) →
      (getStatus env order).1 = none ∧
      ∃ e, (getStatus env order).2 = some e ∧
        (env.GetBalance rp = .error e ∨ env.GetQueueTotalLength rp = .error e ∨
          env.GetQueueTotalCapacity rp = .error e)) ∧
    ((getStatus env order).1 = none ↔ (getStatus env order).2 ≠ none) := by
  unfold IsSchedule at horder
  have hlen := horder.length_eq
  match order, horder, hlen with
  | [i, j, k], horder, _ =>
    fin_cases i <;> fin_cases j <;> fin_cases k <;>
    first
    | exact absurd horder (by decide)
    | (rcases hB : env.GetBalance rp with eb | b <;>
        rcases hL : env.GetQueueTotalLength rp with el | l <;>
        rcases hC : env.GetQueueTotalCapacity rp with ec | c <;>
        simp [getStatus, goroutine, report, hstorage, hrp, hB, hL, hC])

/-- C6 at the example environment: when the read of the queue length fails,
whatever the other reads return first, there is no response and the error is
that of the failed read; when the three reads succeed the response holds the
three values. -/
theorem getStatus_all_or_nothing_witness :
    getStatus (exampleEnv (.ok 5) (.error "queue length") (.ok 7)) [2, 0, 1] =
      (none, some "queue length") ∧
    getStatus (exampleEnv (.ok 5) (.ok 6) (.ok 7)) [2, 0, 1] = (some ⟨"5", 6, "7"⟩, none) := by
  have h1 := getStatus_all_or_nothing (exampleEnv (.ok 5) (.error "queue length") (.ok 7))
    [2, 0, 1] () rfl rfl (by decide)
  have h2 := getStatus_all_or_nothing (exampleEnv (.ok 5) (.ok 6) (.ok 7))
    [2, 0, 1] () rfl rfl (by decide)
  refine ⟨?_, h2.2.1 5 6 7 rfl rfl rfl⟩
  obtain ⟨hnone, e, he, hfrom⟩ := h1.2.2.1 (Or.inr (Or.inl ⟨_, rfl⟩))
  have hee : e = "queue length" := by
    rcases hfrom with h | h | h
    · exact absurd h (by simp [exampleEnv])
    · simpa [exampleEnv] using h.symm
    · exact absurd h (by simp [exampleEnv])
  rw [hee] at he
  exact Prod.ext hnone he

end queue
